import Mathlib

/-!
Verification of the scripted telnet session core of the
asteroid-comet-data-generator repository.

The definitions below are a shallow embedding of the TypeScript source:

* `src/telnet-sequence.ts` — the session automaton `TelnetSequence.process`
  (newline normalization, the data-event handler that assembles and emits
  lines, the escape/control filter `processEscapesAndControls`, and the
  prompt-matching loop), embedded here as `normalizeNewlines`,
  `dataHandler`, `processEscapesAndControls`, `runLoop` and `processRun`.
* `src/telnet.ts` — the option-negotiation routine `Telnet.negotiate`,
  embedded as `negotiateWrites` / `negotiateReturn` (bytes are `Nat`,
  the hex-string manipulation of the source is embedded as lists of
  nibble values 0..15).
* `src/queryable-promise.ts` — the settlement flags of
  `QueryablePromise`, embedded as the flag state machine `qpApply`.

Event delivery: the source pushes transport events through a single
consumer queue (class `Emitter`); the consumer loop of `process` takes
them one at a time, in order.  The loop is embedded as a function over
the finite list of events delivered to it, consumed in FIFO order.
-/

/-! ### Newline normalization (telnet-sequence.ts line 212-213)

`data.toString().replace(/\r\r\n/g, '\n').replace(/\r\n?/g, '\n')`.
Each global replace scans left to right, does not rescan the replacement
text, and `\r\n?` greedily prefers `\r\n` over a lone `\r`. -/

def replCRCRLF : List Char → List Char
  | '\r' :: '\r' :: '\n' :: rest => '\n' :: replCRCRLF rest
  | c :: rest => c :: replCRCRLF rest
  | [] => []

def replCRLFopt : List Char → List Char
  | '\r' :: '\n' :: rest => '\n' :: replCRLFopt rest
  | '\r' :: rest => '\n' :: replCRLFopt rest
  | c :: rest => c :: replCRLFopt rest
  | [] => []

def normalizeNewlines (s : String) : String :=
  String.mk (replCRLFopt (replCRCRLF s.data))

/-! ### Escape and control filter
(`TelnetSequence.processEscapesAndControls`, telnet-sequence.ts 291-340)

State per chunk: the accumulated `result`, the `startEscape` /
`inEscape` flags, the pending `escSequence`, plus the list of strings
written back to the transport for escape-handler responses (the source
does `this.telnet?.write(response)` for a truthy response; the empty
string is falsy in JS, hence not written).  The absent-handler case of
the source is the constant-`none` handler. -/

structure EscSt where
  result : List Char
  startEscape : Bool
  inEscape : Bool
  escSequence : List Char
  writes : List String
deriving DecidableEq

def isAsciiAlpha (c : Char) : Bool :=
  (97 ≤ c.toNat && c.toNat ≤ 122) || (65 ≤ c.toNat && c.toNat ≤ 90)

def pecStep (strip : Bool) (handler : String → Option String) (st : EscSt) (c : Char) : EscSt :=
  let step1 : EscSt × Bool :=
    if st.startEscape then
      if c = '[' then
        ({ st with escSequence := st.escSequence ++ [c], startEscape := false, inEscape := true },
         false)
      else
        ({ st with escSequence := st.escSequence ++ [c], startEscape := false }, true)
    else if st.inEscape then
      if isAsciiAlpha c then
        ({ st with escSequence := st.escSequence ++ [c], inEscape := false }, true)
      else
        ({ st with escSequence := st.escSequence ++ [c] }, false)
    else if c = '\x1B' then
      ({ st with escSequence := [c], startEscape := true }, false)
    else if strip = false ∨ 32 ≤ c.toNat ∨ c = '\t' ∨ c = '\r' ∨ c = '\n' then
      ({ st with result := st.result ++ [c] }, false)
    else
      (st, false)
  if step1.2 then
    let st1 := step1.1
    let w : List String :=
      match handler (String.mk st1.escSequence) with
      | some r => if r = "" then st1.writes else st1.writes ++ [r]
      | none => st1.writes
    if strip then { st1 with writes := w }
    else { st1 with writes := w, result := st1.result ++ st1.escSequence }
  else step1.1

def pecFold (strip : Bool) (handler : String → Option String) (st : EscSt) (cs : List Char) :
    EscSt :=
  cs.foldl (pecStep strip handler) st

def processEscapesAndControls (strip : Bool) (handler : String → Option String) (s : String) :
    String × List String :=
  let st := pecFold strip handler ⟨[], false, false, [], []⟩ s.data
  (String.mk st.result, st.writes)

/-! ### Line assembly (the `data` handler of `process`, telnet-sequence.ts 211-233)

The handler appends the filtered text to `buffer`, emits every prefix up
to and including each `\n`, then — if anything remains — emits the
remainder as well and clears the buffer (`if (buffer)
lineSource.emit(buffer); buffer is cleared`).  `dataHandler` returns the list
of emitted lines together with the buffer contents after the handler
runs. -/

def emitLinesAux (cur : List Char) : List Char → List (List Char)
  | [] => if cur = [] then [] else [cur.reverse]
  | c :: rest =>
    if c = '\n' then (cur.reverse ++ ['\n']) :: emitLinesAux [] rest
    else emitLinesAux (c :: cur) rest

def dataHandler (strip : Bool) (handler : String → Option String) (buf : String)
    (data : String) : List String × String :=
  let filtered := (processEscapesAndControls strip handler (normalizeNewlines data)).1
  let b := buf ++ filtered
  ((emitLinesAux [] b.data).map String.mk, "")

/-! ### Prompt matching and the consumer loop (telnet-sequence.ts 259-288)

A script step holds a prompt (`RegExp | string`, with `null` used by the
caller as well) and a response (`string`, with `null` used as well).
String prompts match by `line.endsWith(prompt)`; `RegExp` prompts by
`prompt.test(line)`, embedded as an opaque boolean test on the line.
An out-of-range step lookup (`this.steps[this.step]?.prompt`) yields
no prompt and never matches, exactly like a `null` prompt. -/

inductive PromptV where
  | str (s : String)
  | pat (test : String → Bool)

structure ScriptStep where
  prompt : Option PromptV
  response : Option String

def jsEndsWith (s p : String) : Bool := decide (p.data <:+ s.data)

def promptTest : Option PromptV → String → Bool
  | some (.str p), line => jsEndsWith line p
  | some (.pat t), line => t line
  | none, _ => false

inductive LoopStatus where
  | pending
  | done
  | failed (msg : String)
deriving DecidableEq

inductive TEvent where
  | line (s : String)
  | err (msg : String)
  | eos
deriving DecidableEq

/-- The `close` handler (telnet-sequence.ts 235-238) sets `connected = false`
and emits the `null` sentinel into the line source. -/
def closeEmits : TEvent := TEvent.eos

/-- The `end` handler (telnet-sequence.ts 240-243) sets `connected = false`
and emits the `null` sentinel into the line source. -/
def endEmits : TEvent := TEvent.eos

/-- The main consumer loop of `TelnetSequence.process` (telnet-sequence.ts
269-287), run over the finite list of events delivered through the
`Emitter` queue, in order.  Returns the loop outcome, the final script
cursor, and the list of responses passed to `telnet.send` during the
loop.  An `Error` value rejects the promise; the `null` sentinel ends
the loop and the promise resolves; on a matching line the current
response is sent and `this.step` increments by one; otherwise the line
goes to `lineReceiver`, a `true` return breaking the loop (resolve). -/
def runLoop (steps : List ScriptStep) (recv : String → Bool) :
    Nat → List TEvent → LoopStatus × Nat × List (Option String)
  | cursor, [] => (LoopStatus.pending, cursor, [])
  | cursor, TEvent.eos :: _ => (LoopStatus.done, cursor, [])
  | cursor, TEvent.err m :: _ => (LoopStatus.failed m, cursor, [])
  | cursor, TEvent.line s :: rest =>
    if promptTest ((steps.get? cursor).bind ScriptStep.prompt) s then
      let r := runLoop steps recv (cursor + 1) rest
      (r.1, r.2.1, ((steps.get? cursor).map ScriptStep.response).getD none :: r.2.2)
    else if recv s then (LoopStatus.done, cursor, [])
    else runLoop steps recv cursor rest

/-- `TelnetSequence.process` after a successful connect: if the first
step exists and has a `null` prompt, its response is sent immediately
and the cursor starts at 1 (telnet-sequence.ts 263-266); then the main
loop runs. -/
def processRun (steps : List ScriptStep) (recv : String → Bool) (evs : List TEvent) :
    LoopStatus × Nat × List (Option String) :=
  match steps.head? with
  | some s0 =>
    match s0.prompt with
    | none =>
      let r := runLoop steps recv 1 evs
      (r.1, r.2.1, s0.response :: r.2.2)
    | some _ => runLoop steps recv 0 evs
  | none => runLoop steps recv 0 evs

/-- Modelled from the spec: "if the script is exhausted (cursor beyond
the last step) the automaton keeps forwarding every subsequent line to
the consumer until it signals stop or the stream ends — it never errors
merely because there are no more scripted steps."  Pure consumer
forwarding, for comparison with `runLoop`. -/
def specForwardAll (recv : String → Bool) (cursor : Nat) :
    List TEvent → LoopStatus × Nat × List (Option String)
  | [] => (LoopStatus.pending, cursor, [])
  | TEvent.eos :: _ => (LoopStatus.done, cursor, [])
  | TEvent.err m :: _ => (LoopStatus.failed m, cursor, [])
  | TEvent.line s :: rest =>
    if recv s then (LoopStatus.done, cursor, []) else specForwardAll recv cursor rest

/-! ### Option negotiation (`Telnet.negotiate`, telnet.ts 237-272)

The source converts the chunk to a hex string, derives the default
response by the global substitutions `fd -> fc` then `fb -> fd` over the
hex text of the leading run of 0xFF-introduced triplets, assembles the
reply six hex digits at a time (special-casing `fd18` and `fd1f`), and
writes `Buffer.from(negResp) with hex decoding`.  Hex text is embedded as a list of
nibble values (0..15); `a`..`f` are 10..15. -/

def hexNibbles (bs : List Nat) : List Nat :=
  (bs.map fun b => [b / 16, b % 16]).flatten

/-- JS `String.prototype.replace` with a global two-character pattern:
leftmost match, the replacement is not rescanned. -/
def replace2 (p1 p2 r1 r2 : Nat) : List Nat → List Nat
  | [] => []
  | [x] => [x]
  | x :: y :: rest =>
    if x = p1 ∧ y = p2 then r1 :: r2 :: replace2 p1 p2 r1 r2 rest
    else x :: replace2 p1 p2 r1 r2 (y :: rest)

/-- The triplet scan of `negotiate` (telnet.ts 243-249): the first index
`i` in steps of 3 with `chunk[i] !== 255`; everything before it is
negotiation payload, everything from it on is ordinary data
(`cmdData`, which stays `null` when the loop never breaks). -/
def breakIndex (chunk : List Nat) : Option Nat :=
  (List.range chunk.length).find? fun i => i % 3 == 0 && chunk.getD i 0 != 255

def negData (chunk : List Nat) : List Nat :=
  match breakIndex chunk with
  | some i => chunk.take i
  | none => chunk

def cmdData (chunk : List Nat) : Option (List Nat) :=
  (breakIndex chunk).map fun i => chunk.drop i

def defaultResponse (chunk : List Nat) : List Nat :=
  replace2 15 11 15 13 (replace2 15 13 15 12 (hexNibbles (negData chunk)))

/-- JS `substr(start, len)` for a nonnegative start: clamps at the end. -/
def listSub (l : List Nat) (start len : Nat) : List Nat := (l.drop start).take len

def buildResp (chunkHex defResp : List Nat) : Nat → Nat → List Nat
  | _, 0 => []
  | i, fuel + 1 =>
    if i < chunkHex.length then
      (if listSub chunkHex (i + 2) 4 = [15, 13, 1, 8] then [15, 15, 15, 11, 1, 8]
       else if listSub chunkHex (i + 2) 4 = [15, 13, 1, 15] then
         [15, 15, 15, 11, 1, 15, 15, 15, 15, 10, 1, 15, 2, 7, 0, 15, 2, 7, 0, 15, 15, 15, 15, 0]
       else listSub defResp i 6) ++ buildResp chunkHex defResp (i + 6) fuel
    else []

/-- Hex decoding as done by Buffer.from with the hex encoding: consecutive nibble pairs become bytes;
a trailing unpaired nibble is dropped. -/
def fromHexNibbles : List Nat → List Nat
  | a :: b :: rest => (16 * a + b) :: fromHexNibbles rest
  | _ => []

/-- The bytes `negotiate` writes to the socket for an inbound chunk
(assuming the socket is writable, telnet.ts 268-269). -/
def negotiateWrites (chunk : List Nat) : List Nat :=
  fromHexNibbles (buildResp (hexNibbles chunk) (defaultResponse chunk) 0 (hexNibbles chunk).length)

/-- The value `negotiate` returns (`cmdData`); `none` embeds JS `null`,
which the `data` listener of `connect` then drops (telnet.ts 127-134). -/
def negotiateReturn (chunk : List Nat) : Option (List Nat) := cmdData chunk

/-! ### QueryablePromise settlement flags (queryable-promise.ts)

The wrapped resolve sets `_isResolved` and `_isSettled`; the wrapped
reject sets `_isRejected` and `_isSettled`; both unconditionally, and
neither call ever throws (the underlying promise ignores settlement
attempts after the first).  After `super(...)` returns, the constructor
body sets all three fields back to `false` (lines 20-22), so whatever
the executor did synchronously, construction ends with all flags
cleared. -/

structure QPFlags where
  isResolved : Bool
  isRejected : Bool
  isSettled : Bool
deriving DecidableEq

inductive QPOp where
  | resolve
  | reject
deriving DecidableEq

def qpApply : QPFlags → QPOp → QPFlags
  | s, QPOp.resolve => { s with isResolved := true, isSettled := true }
  | s, QPOp.reject => { s with isRejected := true, isSettled := true }

def qpInit : QPFlags := ⟨false, false, false⟩

def qpRun (s : QPFlags) (ops : List QPOp) : QPFlags := ops.foldl qpApply s

/-- The explicit field resets in the constructor body (lines 20-22)
discard whatever the executor set synchronously. -/
def qpCtorReset (_ : QPFlags) : QPFlags := qpInit

/-- State of the flags when the constructor returns, given the
resolve/reject calls the executor performed synchronously. -/
def qpAfterConstruction (execOps : List QPOp) : QPFlags :=
  qpCtorReset (qpRun qpInit execOps)

/-! ### Caller-supplied configuration (telnet-sequence.ts 182-187, telnet.ts)

The `TelnetSequence` constructor keeps a reference to the options
object and writes `this.opts.sessionTimeout = opts.sessionTimeout ??
60000` through it.  The fields below are the options the core reads;
the remaining `ConnectOptions` fields are treated identically by the
core (never written through the retained caller reference) and are omitted.
`Telnet.connect` / `send` / `write` only ever assign into the `Telnet`
instance private copy (`Object.assign(this.opts, ...)`,
`this.opts.ors = ...`, `stringToRegex(this.opts)`), so the caller
object is left unchanged by them; `telnetConnectOptsAfter` etc. give the
caller-visible value of the object after each call. -/

structure TelnetSequenceOptions where
  host : Option String
  port : Option Nat
  timeout : Option Nat
  echoToConsole : Option Bool
  sessionTimeout : Option Nat
  stripControls : Option Bool
deriving DecidableEq

/-- Value of the caller options object after `new TelnetSequence(opts, steps)`:
the constructor assigns `opts.sessionTimeout ?? 60000` into the object. -/
def tsConstructorOptsAfter (opts : TelnetSequenceOptions) : TelnetSequenceOptions :=
  { opts with sessionTimeout := some (opts.sessionTimeout.getD 60000) }

/-- Value of the caller options object after `Telnet.connect(opts)`: `connect`
copies into the options object owned by the instance (`Object.assign(this.opts, opts
?? {})`) and mutates only that copy. -/
def telnetConnectOptsAfter (callerOpts : TelnetSequenceOptions) : TelnetSequenceOptions :=
  callerOpts

/-- Value of the caller options object after `Telnet.send(data, opts)`: `send`
writes `this.opts.ors` and delegates to `write`; neither writes through
the retained caller reference. -/
def telnetSendOptsAfter (callerOpts : TelnetSequenceOptions) : TelnetSequenceOptions :=
  callerOpts

/-- Value of the caller options object after `Telnet.write(data, opts)`:
`Object.assign(this.opts, opts || {})` targets the instance copy. -/
def telnetWriteOptsAfter (callerOpts : TelnetSequenceOptions) : TelnetSequenceOptions :=
  callerOpts

/-! ## Helper lemmas -/

theorem str_eq_empty_of_data_nil {p : String} (h : p.data = []) : p = "" := by
  cases p
  simp_all [String.ext_iff]

theorem endsWith_newline_iff (l : String) :
    jsEndsWith l "\n" = true ↔ l.data.getLast? = some '\n' := by
  unfold jsEndsWith
  rw [decide_eq_true_iff]
  constructor
  · rintro ⟨t, ht⟩
    rw [← ht]
    exact List.getLast?_concat t
  · intro h
    rw [List.getLast?_eq_some_iff] at h
    obtain ⟨ys, hy⟩ := h
    exact ⟨ys, hy.symm⟩

theorem emitLines_term_last :
    ∀ (cs cur : List Char), '\n' ∉ cur →
      ∀ l ∈ emitLinesAux cur cs, '\n' ∈ l → l.getLast? = some '\n' := by
  intro cs
  induction cs with
  | nil =>
    intro cur hcur l hl hnl
    by_cases hc : cur = []
    · simp [emitLinesAux, hc] at hl
    · simp [emitLinesAux, hc] at hl
      subst hl
      exact absurd (List.mem_reverse.mp hnl) hcur
  | cons c cs ih =>
    intro cur hcur l hl hnl
    by_cases hc : c = '\n'
    · subst hc
      simp only [emitLinesAux, if_pos rfl] at hl
      rcases List.mem_cons.mp hl with h | h
      · subst h
        exact List.getLast?_concat _
      · exact ih [] (by simp) l h hnl
    · simp only [emitLinesAux, if_neg hc] at hl
      have : '\n' ∉ c :: cur := by
        intro hmem
        rcases List.mem_cons.mp hmem with h | h
        · exact hc h.symm
        · exact hcur h
      exact ih (c :: cur) this l hl hnl

theorem endsWith_false_of_newline_line (p line : String) (hp : p ≠ "")
    (hpn : jsEndsWith p "\n" = false) (hln : jsEndsWith line "\n" = true) :
    jsEndsWith line p = false := by
  by_contra h
  rw [Bool.not_eq_false] at h
  have hsuf : p.data <:+ line.data := by
    unfold jsEndsWith at h
    exact of_decide_eq_true h
  have hpd : p.data ≠ [] := fun hh => hp (str_eq_empty_of_data_nil hh)
  have hl : line.data.getLast? = some '\n' := (endsWith_newline_iff line).1 hln
  obtain ⟨t, ht⟩ := hsuf
  have hpl : p.data.getLast? = some '\n' := by
    rw [← ht] at hl
    rwa [List.getLast?_append_of_ne_nil t hpd] at hl
  have : jsEndsWith p "\n" = true := (endsWith_newline_iff p).2 hpl
  simp [hpn] at this

theorem pecStep_printable (handler : String → Option String) (st : EscSt) (c : Char)
    (hc : 32 ≤ c.toNat ∨ c = '\t' ∨ c = '\r' ∨ c = '\n')
    (hse : st.startEscape = false) (hie : st.inEscape = false) :
    pecStep true handler st c = { st with result := st.result ++ [c] } := by
  have hcesc : ¬(c = '\x1B') := by
    intro hh
    subst hh
    rcases hc with h | h | h | h <;> simp_all
  unfold pecStep
  simp [hse, hie, hcesc, hc]

theorem pecFold_printable (handler : String → Option String) :
    ∀ (cs : List Char) (st : EscSt),
      (∀ c ∈ cs, 32 ≤ c.toNat ∨ c = '\t' ∨ c = '\r' ∨ c = '\n') →
      st.startEscape = false → st.inEscape = false →
      pecFold true handler st cs = { st with result := st.result ++ cs } := by
  intro cs
  induction cs with
  | nil =>
    intro st _ _ _
    simp [pecFold]
  | cons c cs ih =>
    intro st hall hse hie
    have hc := hall c (List.mem_cons_self c cs)
    have hstep := pecStep_printable handler st c hc hse hie
    have htail : ∀ x ∈ cs, 32 ≤ x.toNat ∨ x = '\t' ∨ x = '\r' ∨ x = '\n' :=
      fun x hx => hall x (List.mem_cons_of_mem c hx)
    calc pecFold true handler st (c :: cs)
        = pecFold true handler (pecStep true handler st c) cs := by
          simp [pecFold]
      _ = pecFold true handler { st with result := st.result ++ [c] } cs := by rw [hstep]
      _ = { st with result := st.result ++ (c :: cs) } := by
          rw [ih _ htail (by simpa using hse) (by simpa using hie)]
          simp

theorem runLoop_eos_done (steps : List ScriptStep) (recv : String → Bool) :
    ∀ (evs : List TEvent) (cursor : Nat), (∀ m, TEvent.err m ∉ evs) →
      (runLoop steps recv cursor (evs ++ [TEvent.eos])).1 = LoopStatus.done := by
  intro evs
  induction evs with
  | nil =>
    intro cursor _
    simp [runLoop]
  | cons e rest ih =>
    intro cursor h
    have hrest : ∀ m, TEvent.err m ∉ rest := fun m hm => h m (List.mem_cons_of_mem _ hm)
    cases e with
    | line s =>
      cases hm : promptTest ((steps.get? cursor).bind ScriptStep.prompt) s with
      | true =>
        simp only [List.cons_append, runLoop]
        rw [hm]
        simpa using ih (cursor + 1) hrest
      | false =>
        cases hr : recv s with
        | true =>
          simp only [List.cons_append, runLoop]
          rw [hm, hr]
          simp
        | false =>
          simp only [List.cons_append, runLoop]
          rw [hm, hr]
          simpa using ih cursor hrest
    | err m => exact absurd (List.mem_cons_self _ _) (h m)
    | eos => simp [runLoop]

theorem runLoop_exhausted (steps : List ScriptStep) (recv : String → Bool) :
    ∀ (evs : List TEvent) (cursor : Nat), steps.length ≤ cursor →
      runLoop steps recv cursor evs = specForwardAll recv cursor evs := by
  intro evs
  induction evs with
  | nil =>
    intro c _
    simp [runLoop, specForwardAll]
  | cons e rest ih =>
    intro c h
    cases e with
    | line s =>
      have hn : steps.get? c = none := List.get?_eq_none.mpr h
      have hpt : promptTest ((steps.get? c).bind ScriptStep.prompt) s = false := by
        rw [hn]
        rfl
      cases hr : recv s with
      | true =>
        simp only [runLoop, specForwardAll]
        rw [hpt, hr]
        simp
      | false =>
        simp only [runLoop, specForwardAll]
        rw [hpt, hr]
        simpa using ih c h
    | err m => simp [runLoop, specForwardAll]
    | eos => simp [runLoop, specForwardAll]

theorem specForwardAll_no_fail (recv : String → Bool) :
    ∀ (evs : List TEvent) (c : Nat), (∀ m, TEvent.err m ∉ evs) →
      ∀ m, (specForwardAll recv c evs).1 ≠ LoopStatus.failed m := by
  intro evs
  induction evs with
  | nil =>
    intro c _ m
    simp [specForwardAll]
  | cons e rest ih =>
    intro c h m
    have hrest : ∀ m, TEvent.err m ∉ rest := fun m hm => h m (List.mem_cons_of_mem _ hm)
    cases e with
    | line s =>
      by_cases hr : recv s
      · simp [specForwardAll, hr]
      · simpa [specForwardAll, hr] using ih c hrest m
    | err m2 => exact absurd (List.mem_cons_self _ _) (h m2)
    | eos => simp [specForwardAll]

/-! ## Claim theorems -/

/-- Claim C1, counterexample.  The claim asserts that feeding `"ab"` then
`"c\nd"` yields exactly one completed line `"abc"` with `"d"` retained in
the buffer, text without a terminator being held across chunk
boundaries.  The data handler instead flushes: the chunk `"ab"` is
emitted immediately as a partial line and the buffer is cleared; the
second chunk then yields the completed line `"c\n"` (not `"abc"`) plus
the flushed partial `"d"`, and the buffer ends empty, not `"d"`. -/
theorem c1_partial_flush_counterexample :
    (dataHandler false (fun _ => none) "" "ab").1 = ["ab"] ∧
    (dataHandler false (fun _ => none) "" "ab").2 = "" ∧
    (dataHandler false (fun _ => none) (dataHandler false (fun _ => none) "" "ab").2 "c\nd").1
      = ["c\n", "d"] ∧
    (["ab"] : List String) ≠ [] ∧ ("" : String) ≠ "d" := by decide

/-- Claim C1, amended.  After processing any chunk the buffer is empty:
unterminated trailing text is emitted at once as a partial line rather
than carried into the next chunk.  Feeding `"ab"` then `"c\nd"` emits
`"ab"`, then `"c\n"` and `"d"`; the only completed line is `"c\n"`. -/
theorem c1_partial_flush_amended :
    (∀ (strip : Bool) (handler : String → Option String) (buf data : String),
      (dataHandler strip handler buf data).2 = "") ∧
    (dataHandler false (fun _ => none) "" "ab").1 = ["ab"] ∧
    (dataHandler false (fun _ => none) "" "c\nd").1 = ["c\n", "d"] := by
  refine ⟨fun _ _ _ _ => rfl, by decide, by decide⟩

/-- Claim C2, counterexample.  For the unsupported triplet
`FF FD FD` the claim requires the reply `FF FC FD` (option byte
unchanged); the hex-text global substitution of the source also rewrites
the option byte, producing `FF FC FC`. -/
theorem c2_option_byte_counterexample :
    negotiateWrites [255, 253, 253] = [255, 252, 252] ∧
    negotiateWrites [255, 253, 253] ≠ [255, 252, 253] := by decide

set_option maxRecDepth 10000 in
set_option maxHeartbeats 4000000 in
/-- Claim C2, amended.  For a single unsupported triplet whose command
is 0xFD or 0xFB, the reply swaps the command byte (0xFD to 0xFC, 0xFB to
0xFD) and keeps the introducer and option byte, PROVIDED the option byte
is not itself 0xFB or 0xFD; for those two option values the hex-level
substitution rewrites the option byte as well
(`c2_option_byte_counterexample`). -/
theorem c2_default_reply_amended :
    ∀ opt : Fin 256, opt.val ≠ 251 → opt.val ≠ 253 →
      (negotiateWrites [255, 251, opt.val] = [255, 253, opt.val] ∧
       (opt.val ≠ 24 → opt.val ≠ 31 →
         negotiateWrites [255, 253, opt.val] = [255, 252, opt.val])) := by
  decide

/-- Witness for `c2_default_reply_amended` at option byte 0x05. -/
theorem c2_default_reply_amended_witness :
    negotiateWrites [255, 251, 5] = [255, 253, 5] ∧
    negotiateWrites [255, 253, 5] = [255, 252, 5] := by
  have h := c2_default_reply_amended 5 (by decide) (by decide)
  exact ⟨h.1, h.2 (by decide) (by decide)⟩

/-- Claim C3, failing-input evaluation.  Script: step 0 prompts `"a"`
answering `"x"`, step 1 is the null/null no-op marker, step 2 prompts
`"b"` answering `"y"`.  Lines `"a"` then `"b"` arrive and the consumer
never stops.  The claim (and the spec) requires the cursor to skip the
no-op so that `"b"` matches step 2 and `"y"` is sent; the code has no
skip: after matching `"a"` the cursor rests on the no-op step (cursor
is 1), `"b"` matches nothing, and only `"x"` is ever sent.  The in-repo
caller (app.ts) places exactly such a null/null step in its script and
depends on it being skipped. -/
theorem c3_noop_step_not_skipped :
    processRun
      [⟨some (PromptV.str "a"), some "x"⟩, ⟨none, none⟩, ⟨some (PromptV.str "b"), some "y"⟩]
      (fun _ => false) [TEvent.line "a", TEvent.line "b"] =
      (LoopStatus.pending, 1, [some "x"]) := by decide

/-- Claim C4, counterexample.  The `TelnetSequence` constructor writes
`this.opts.sessionTimeout = opts.sessionTimeout ?? 60000` through the
retained reference, so a caller object without a `sessionTimeout` is
mutated during construction. -/
theorem c4_config_mutation_counterexample :
    tsConstructorOptsAfter ⟨none, none, none, none, none, none⟩ ≠
      ⟨none, none, none, none, none, none⟩ := by decide

/-- Claim C4, amended.  The only field of the caller-supplied
configuration the core ever writes is `sessionTimeout`, defaulted to
60000 by the constructor; every other field is untouched, a provided
`sessionTimeout` is rewritten with its own value (no visible change),
and `Telnet.connect` / `send` / `write` leave the caller object
unchanged (they assign only into the `Telnet` instance copy). -/
theorem c4_config_mutation_amended (opts : TelnetSequenceOptions) :
    (tsConstructorOptsAfter opts).host = opts.host ∧
    (tsConstructorOptsAfter opts).port = opts.port ∧
    (tsConstructorOptsAfter opts).timeout = opts.timeout ∧
    (tsConstructorOptsAfter opts).echoToConsole = opts.echoToConsole ∧
    (tsConstructorOptsAfter opts).stripControls = opts.stripControls ∧
    (∀ t, opts.sessionTimeout = some t → tsConstructorOptsAfter opts = opts) ∧
    telnetConnectOptsAfter opts = opts ∧
    telnetSendOptsAfter opts = opts ∧
    telnetWriteOptsAfter opts = opts := by
  refine ⟨rfl, rfl, rfl, rfl, rfl, ?_, rfl, rfl, rfl⟩
  intro t ht
  cases opts
  simp_all [tsConstructorOptsAfter]

/-- Witness for `c4_config_mutation_amended`: with `sessionTimeout`
provided, construction leaves the caller object unchanged. -/
theorem c4_config_mutation_amended_witness :
    tsConstructorOptsAfter ⟨some "h", some 23, none, none, some 7, none⟩ =
      ⟨some "h", some 23, none, none, some 7, none⟩ :=
  (c4_config_mutation_amended ⟨some "h", some 23, none, none, some 7, none⟩).2.2.2.2.2.1 7 rfl

/-- Claim C5, confirmed.  When the transport emits `close` or `end`, the
handler pushes the `null` sentinel through the bridge queue; whatever
events (lines, in any number, but no errors) precede it, the loop ends
with a successful resolution, even with script steps unconsumed (the
cursor and the step list are arbitrary here). -/
theorem c5_stream_end_resolves (steps : List ScriptStep) (recv : String → Bool)
    (cursor : Nat) (evs : List TEvent) (h : ∀ m, TEvent.err m ∉ evs) :
    (runLoop steps recv cursor (evs ++ [closeEmits])).1 = LoopStatus.done ∧
    (runLoop steps recv cursor (evs ++ [endEmits])).1 = LoopStatus.done :=
  ⟨runLoop_eos_done steps recv evs cursor h, runLoop_eos_done steps recv evs cursor h⟩

/-- Witness for `c5_stream_end_resolves`: one unmatched line, then the
close sentinel, with one script step still unconsumed. -/
theorem c5_stream_end_resolves_witness :
    (runLoop [⟨some (PromptV.str "p"), some "r"⟩] (fun _ => false) 0
      ([TEvent.line "a"] ++ [closeEmits])).1 = LoopStatus.done :=
  (c5_stream_end_resolves [⟨some (PromptV.str "p"), some "r"⟩] (fun _ => false) 0
    [TEvent.line "a"] (by intro m hm; simp at hm)).1

/-- Claim C6, confirmed.  With the cursor beyond the last step, the
out-of-range lookup yields no prompt (it cannot fault), no line ever
matches, every line is handed to the consumer exactly as in the pure
forwarding loop `specForwardAll` (which stops successfully when the
consumer returns true), and the loop never fails absent an error
event. -/
theorem c6_script_exhausted (steps : List ScriptStep) (recv : String → Bool) (cursor : Nat)
    (evs : List TEvent) (h : steps.length ≤ cursor) :
    runLoop steps recv cursor evs = specForwardAll recv cursor evs ∧
    ((∀ m, TEvent.err m ∉ evs) →
      ∀ m, (runLoop steps recv cursor evs).1 ≠ LoopStatus.failed m) := by
  refine ⟨runLoop_exhausted steps recv evs cursor h, ?_⟩
  intro he m
  rw [runLoop_exhausted steps recv evs cursor h]
  exact specForwardAll_no_fail recv evs cursor he m

/-- Witness for `c6_script_exhausted`: the empty script with one line. -/
theorem c6_script_exhausted_witness :
    runLoop [] (fun _ => false) 0 [TEvent.line "x"] =
      specForwardAll (fun _ => false) 0 [TEvent.line "x"] :=
  (c6_script_exhausted [] (fun _ => false) 0 [TEvent.line "x"] (by simp)).1

/-- Claim C7, confirmed.  `FF FD 18` makes `negotiate` write exactly
`FF FB 18` and return no leftover payload; `FF FD 1F` makes it write
exactly `FF FB 1F FF FA 1F 27 0F 27 0F FF F0`. -/
theorem c7_supported_option_replies :
    negotiateWrites [255, 253, 24] = [255, 251, 24] ∧
    negotiateReturn [255, 253, 24] = none ∧
    negotiateWrites [255, 253, 31] =
      [255, 251, 31, 255, 250, 31, 39, 15, 39, 15, 255, 240] := by decide

/-- Claim C8, confirmed.  On a chunk whose every character has code at
least 32 or is tab/CR/LF, and which contains no ESC, the filter with
stripping enabled returns the chunk unchanged (hence it is idempotent on
such inputs). -/
theorem c8_filter_identity (handler : String → Option String) (s : String)
    (hchars : ∀ c ∈ s.data, 32 ≤ c.toNat ∨ c = '\t' ∨ c = '\r' ∨ c = '\n')
    (hesc : '\x1B' ∉ s.data) :
    (processEscapesAndControls true handler s).1 = s := by
  show String.mk (pecFold true handler ⟨[], false, false, [], []⟩ s.data).result = s
  rw [pecFold_printable handler s.data ⟨[], false, false, [], []⟩ hchars rfl rfl]
  show String.mk ([] ++ s.data) = s
  cases s
  rfl

/-- Witness for `c8_filter_identity` on `"ab\tc\n"`. -/
theorem c8_filter_identity_witness :
    (processEscapesAndControls true (fun _ => none) "ab\tc\n").1 = "ab\tc\n" :=
  c8_filter_identity (fun _ => none) "ab\tc\n" (by decide) (by decide)

/-- Claim C9, counterexample.  After a resolution, a later reject is not
a flag no-op: the wrapped reject unconditionally sets `_isRejected`, so
the flags change (the claim requires all three flags unchanged by any
post-settlement attempt). -/
theorem c9_settlement_flags_counterexample :
    (qpRun (qpRun qpInit [QPOp.resolve]) [QPOp.reject]).isRejected = true ∧
    (qpRun qpInit [QPOp.resolve]).isRejected = false ∧
    (qpRun qpInit [QPOp.resolve]).isSettled = true := by decide

/-- Claim C9, amended.  Construction always ends with all flags false
(the constructor body resets them after the executor runs, discarding
any synchronous settlement).  Thereafter `isSettled` always equals
`isResolved or isRejected`, and each flag once set is never cleared; but
a later reject after resolve (or resolve after reject) additionally sets
its own flag rather than leaving the flags unchanged
(`c9_settlement_flags_counterexample`).  No attempt throws: both
operations are total flag updates. -/
theorem c9_settlement_flags_amended :
    (∀ execOps : List QPOp, qpAfterConstruction execOps = qpInit) ∧
    (∀ (ops : List QPOp) (s : QPFlags),
      s.isSettled = (s.isResolved || s.isRejected) →
      ((qpRun s ops).isSettled = ((qpRun s ops).isResolved || (qpRun s ops).isRejected) ∧
       (s.isResolved = true → (qpRun s ops).isResolved = true) ∧
       (s.isRejected = true → (qpRun s ops).isRejected = true))) := by
  refine ⟨fun _ => rfl, ?_⟩
  intro ops
  induction ops with
  | nil => exact fun s h => ⟨h, fun hh => hh, fun hh => hh⟩
  | cons op rest ih =>
    intro s h
    have h1 : (qpApply s op).isSettled = ((qpApply s op).isResolved || (qpApply s op).isRejected) := by
      cases op <;> simp [qpApply]
    have h2 := ih (qpApply s op) h1
    have hq : qpRun s (op :: rest) = qpRun (qpApply s op) rest := rfl
    refine ⟨by rw [hq]; exact h2.1, ?_, ?_⟩
    · intro hs
      rw [hq]
      apply h2.2.1
      cases op <;> simp [qpApply, hs]
    · intro hs
      rw [hq]
      apply h2.2.2
      cases op <;> simp [qpApply, hs]

/-- Witness for `c9_settlement_flags_amended` at a single reject from
the just-constructed state. -/
theorem c9_settlement_flags_amended_witness :
    (qpRun qpInit [QPOp.reject]).isSettled =
      ((qpRun qpInit [QPOp.reject]).isResolved || (qpRun qpInit [QPOp.reject]).isRejected) :=
  (c9_settlement_flags_amended.2 [QPOp.reject] qpInit rfl).1

/-- Claim C10, counterexample.  The empty string is a string prompt that
does not end with a line feed, yet suffix matching with it succeeds
against the completed newline-terminated line `"abc\n"` emitted by the
assembler, contradicting the claimed "never". -/
theorem c10_empty_prompt_counterexample :
    (dataHandler false (fun _ => none) "" "abc\nd").1 = ["abc\n", "d"] ∧
    jsEndsWith "abc\n" "\n" = true ∧
    jsEndsWith "" "\n" = false ∧
    promptTest (some (PromptV.str "")) "abc\n" = true := by decide

/-- Claim C10, amended.  Every emitted line that contains a line feed
carries it as its final character (completed lines are delivered with
their terminator), and for every NONEMPTY string prompt not ending in a
line feed, suffix matching never succeeds against a newline-terminated
line — so such prompts can only match flushed partial lines.  The empty
prompt is the sole exception (`c10_empty_prompt_counterexample`). -/
theorem c10_terminator_and_suffix_amended :
    (∀ (strip : Bool) (handler : String → Option String) (buf data line : String),
      line ∈ (dataHandler strip handler buf data).1 → '\n' ∈ line.data →
      jsEndsWith line "\n" = true) ∧
    (∀ p line : String, p ≠ "" → jsEndsWith p "\n" = false → jsEndsWith line "\n" = true →
      promptTest (some (PromptV.str p)) line = false) := by
  constructor
  · intro strip handler buf data line hline hnl
    simp only [dataHandler, List.mem_map] at hline
    obtain ⟨l, hl, rfl⟩ := hline
    rw [endsWith_newline_iff]
    show l.getLast? = some '\n'
    exact emitLines_term_last _ [] (by simp) l hl hnl
  · intro p line hp hpn hln
    show jsEndsWith line p = false
    exact endsWith_false_of_newline_line p line hp hpn hln

/-- Witness for `c10_terminator_and_suffix_amended`: the completed line
`"ab\n"` emitted from chunk `"ab\ncd"` ends with its terminator, and the
nonempty prompt `"x"` cannot match it. -/
theorem c10_terminator_and_suffix_amended_witness :
    promptTest (some (PromptV.str "x")) "ab\n" = false ∧
    jsEndsWith "ab\n" "\n" = true := by
  constructor
  · exact c10_terminator_and_suffix_amended.2 "x" "ab\n" (by decide) (by decide) (by decide)
  · exact c10_terminator_and_suffix_amended.1 false (fun _ => none) "" "ab\ncd" "ab\n"
      (by decide) (by decide)
